import Mathlib

/-!
Verification of the Logbook-Maker PDF annotator (`src/logbook_maker/processor.py`).

The development shallowly embeds the two functions carrying the logic:

* `annotate_pdf` — validation of the numbering configuration, the per-page
  loop that formats the labels, builds an overlay and merges it, and the
  final write of the composed document;
* `_build_overlay_page` — the overlay renderer (three text draw calls with
  fixed layout constants).

PDF pages are modelled by their mediabox dimensions (exact rationals in
place of the reader's decimal coordinates) together with the list of text
strings drawn on them; merging an overlay appends the overlay's text items,
which is how `pypdf`'s `merge_page` behaves at the level of extracted text.
Python's `str.format` is modelled for templates made of literal text, the
brace escapes, and plain named fields — the failure modes relevant here
(unknown field name, a positional field with no positional arguments, an
unmatched brace) are reproduced.  File output is modelled as an event
trace (`annotate_run`).
-/

deriving instance DecidableEq for Except

namespace LogbookMaker

/-- The opening curly brace character, used by the template scanner. -/
def lbrace : Char := Char.ofNat 123

/-- The closing curly brace character, used by the template scanner. -/
def rbrace : Char := Char.ofNat 125

/-- Errors `annotate_pdf` can raise.  `invalidConfiguration` stands for the
three `ValueError`s raised by the validation code itself (lines 60–82 of
`processor.py`); `keyError`, `indexError` and `valueError` stand for the
exceptions Python's `str.format` raises from inside the page loop
(`KeyError` on an unknown field name, `IndexError` on `\x7b\x7d` with no
positional argument, `ValueError` on an unmatched brace). -/
inductive Err where
  | invalidConfiguration (msg : String)
  | keyError (name : String)
  | indexError (msg : String)
  | valueError (msg : String)
  deriving DecidableEq

/-- The keyword configuration of `annotate_pdf`, with the source defaults. -/
structure Config where
  copyNumber : String
  watermarkText : String := "Controlled Copy"
  copyLabelTemplate : String := "Copy No: {copy_number}"
  pageLabelTemplate : String := "Page {number} / {total}"
  startNumber : Int := 1
  totalPages : Option Int := none
  maxPages : Option Int := none
  deriving DecidableEq

/-- A PDF page: its mediabox dimensions and the text items drawn on it. -/
structure Page where
  width : ℚ
  height : ℚ
  content : List String
  deriving DecidableEq

/-- Horizontal alignment of a text draw call on the overlay canvas. -/
inductive TextAlign where
  | right
  | center
  deriving DecidableEq

/-- An RGBA fill color (`reportlab.lib.colors.Color`). -/
structure RGBA where
  r : ℚ
  g : ℚ
  b : ℚ
  a : ℚ
  deriving DecidableEq

/-- One text draw call recorded on the overlay canvas: the string, the font
set for it, the anchor point, the alignment, the fill color, and the
counter-clockwise rotation (degrees) in effect. -/
structure TextDraw where
  text : String
  fontName : String
  fontSize : ℚ
  x : ℚ
  y : ℚ
  align : TextAlign
  fill : RGBA
  rotationDeg : ℚ
  deriving DecidableEq

/-- The overlay page produced by `_build_overlay_page`: canvas size and the
recorded draw calls, in order. -/
structure Overlay where
  width : ℚ
  height : ℚ
  draws : List TextDraw
  deriving DecidableEq

/-- `reportlab.lib.units.inch` = 72 points. -/
def inch : ℚ := 72

/-- `reportlab.lib.colors.black`. -/
def black : RGBA := ⟨0, 0, 0, 1⟩

/-- Keyword-argument lookup, as `str.format` resolves a named field. -/
def lookupVar (vars : List (String × String)) (name : String) : Option String :=
  match vars with
  | [] => none
  | (k, v) :: rest => if k = name then some v else lookupVar rest name

/-- State of the `str.format` scanner: scanning literal text, having just
read an opening or a closing brace, or inside a field whose text has been
accumulated (reversed) so far. -/
inductive FmtState where
  | lit
  | sawOpen
  | sawClose
  | field (acc : List Char)
  deriving DecidableEq

/-- The field name of a replacement field, as CPython splits it: the field
text up to the first conversion marker (`!`) or format spec (`:`). -/
def field_name_part (field : List Char) : List Char :=
  field.takeWhile (fun c => !(c == ':' || c == '!'))

/-- The keyword of a field name (CPython's arg_name): the field name up to
the first attribute access (`.`) or index access (`[`). -/
def arg_name_part (field_name : List Char) : List Char :=
  field_name.takeWhile (fun c => !(c == '.' || c == '['))

/-- Whether a keyword is empty or all digits: CPython then reads it as a
positional field (auto-numbered or an explicit index). -/
def is_digits (l : List Char) : Bool := l.all (fun c => c.isDigit)

/-- Resolution of one replacement field (the text between the braces), as
CPython resolves it before any conversion or format spec would be applied:
the keyword is the field text up to the first `!`, `:`, `.` or `[`.  An
empty or all-digit keyword is a positional field and raises `IndexError`
(`annotate_pdf` passes no positional arguments); an unknown keyword raises
`KeyError` carrying exactly that keyword; a known keyword substitutes its
value.  A conversion, format spec or attribute/index trailer on a known
keyword is not interpreted further: the bare value is substituted, which
coincides with CPython for the `d` spec on the integer label values; other
spec forms, attribute values and nested spec fields are outside the scope
quantified by any theorem below. -/
def resolve_field (vars : List (String × String)) (field : List Char) :
    Except Err (List Char) :=
  let arg := arg_name_part (field_name_part field)
  if is_digits arg then
    .error (.indexError ("Replacement index "
      ++ (if arg.isEmpty then "0" else String.mk arg)
      ++ " out of range for positional args tuple"))
  else
    match lookupVar vars (String.mk arg) with
    | none => .error (.keyError (String.mk arg))
    | some v => .ok v.data

/-- Scanner for Python's `str.format` restricted to literal text, the
`\x7b\x7b` / `\x7d\x7d` escapes and replacement fields that end at the
first closing brace, consuming one character per step.  A closed field is
handed to `resolve_field`; an unmatched brace raises `ValueError`, as in
CPython. -/
def formatAux (vars : List (String × String)) :
    List Char → FmtState → Except Err (List Char)
  | [], .lit => .ok []
  | [], .sawOpen =>
      .error (.valueError "single opening brace encountered in format string")
  | [], .sawClose =>
      .error (.valueError "single closing brace encountered in format string")
  | [], .field _ =>
      .error (.valueError "expected closing brace before end of string")
  | c :: rest, .lit =>
      if c = lbrace then formatAux vars rest .sawOpen
      else if c = rbrace then formatAux vars rest .sawClose
      else (formatAux vars rest .lit).map (fun r => c :: r)
  | c :: rest, .sawOpen =>
      if c = lbrace then (formatAux vars rest .lit).map (fun r => lbrace :: r)
      else if c = rbrace then
        match resolve_field vars [] with
        | .error e => .error e
        | .ok v => (formatAux vars rest .lit).map (fun r => v ++ r)
      else formatAux vars rest (.field [c])
  | c :: rest, .sawClose =>
      if c = rbrace then (formatAux vars rest .lit).map (fun r => rbrace :: r)
      else .error (.valueError "single closing brace encountered in format string")
  | c :: rest, .field acc =>
      if c = rbrace then
        match resolve_field vars acc.reverse with
        | .error e => .error e
        | .ok v => (formatAux vars rest .lit).map (fun r => v ++ r)
      else formatAux vars rest (.field (c :: acc))

/-- `template.format(**vars)` — Python named-field string formatting. -/
def pyFormat (template : String) (vars : List (String × String)) :
    Except Err String :=
  (formatAux vars template.data .lit).map String.mk

/-- `_build_overlay_page(width, height, page_label, copy_label,
watermark_text)`: the overlay canvas with its three draw calls.  The
watermark draw records the `translate(width/2, height/2)`/`rotate(45)`
state as an anchor at the page center with a 45° counter-clockwise
rotation, exactly as the canvas state stands when `drawCentredString(0, 0,
watermark_text)` runs. -/
def build_overlay_page (width height : ℚ)
    (page_label copy_label watermark_text : String) : Overlay :=
  let margin : ℚ := (6 / 10) * inch
  { width := width
    height := height
    draws :=
      [ { text := copy_label, fontName := "Helvetica-Bold", fontSize := 14
          x := width - margin, y := height - margin, align := .right
          fill := black, rotationDeg := 0 },
        { text := page_label, fontName := "Helvetica", fontSize := 12
          x := width / 2, y := margin / 2, align := .center
          fill := black, rotationDeg := 0 },
        { text := watermark_text, fontName := "Helvetica-Bold"
          fontSize := (min width height) * (1 / 10)
          x := width / 2, y := height / 2, align := .center
          fill := ⟨7 / 10, 7 / 10, 7 / 10, 2 / 10⟩, rotationDeg := 45 } ] }

/-- `page.merge_page(overlay)`: composites the overlay onto the page; at
the level of extracted text the overlay's strings are appended to the
page's own content, in draw order. -/
def merge_page (page : Page) (overlay : Overlay) : Page :=
  { page with content := page.content ++ overlay.draws.map (fun d => d.text) }

/-- Lines 68–73 of `processor.py`: the number of pages that receive an
overlay — `min(max_pages, total_page_count)` when a limit is given, the
full page count otherwise. -/
def processed_page_count (cfg : Config) (total_page_count : Int) : Int :=
  match cfg.maxPages with
  | some m => min m total_page_count
  | none => total_page_count

/-- Line 75 of `processor.py`: `start_number + processed_page_count - 1`. -/
def calculated_total (cfg : Config) (ppc : Int) : Int :=
  cfg.startNumber + ppc - 1

/-- Lines 76–77 of `processor.py`: the total shown in page labels — the
`total_pages` override when given, the calculated total otherwise. -/
def resolved_total_pages (cfg : Config) (ppc : Int) : Int :=
  match cfg.totalPages with
  | some t => t
  | none => calculated_total cfg ppc

/-- Lines 68–70 of `processor.py`: `max_pages`, when provided, must be a
positive integer. -/
def max_pages_check (cfg : Config) : Except Err Unit :=
  match cfg.maxPages with
  | some m =>
      if m < 1 then
        .error (.invalidConfiguration "max_pages must be a positive integer")
      else .ok ()
  | none => .ok ()

/-- Lines 76–82 of `processor.py`: a provided `total_pages` override must
not be smaller than the calculated total. -/
def total_pages_check (cfg : Config) (ct : Int) : Except Err Unit :=
  match cfg.totalPages with
  | some t =>
      if t < ct then
        .error (.invalidConfiguration
          "total_pages is smaller than the number of pages that will be numbered.")
      else .ok ()
  | none => .ok ()

/-- The body of the page loop (lines 85–98 of `processor.py`) for the page
at `index`: a page below the processed count gets its labels formatted
(either `str.format` call can raise), an overlay built at its own
dimensions and merged on; any other page is passed through untouched. -/
def annotate_page (cfg : Config) (processed total : Int) (index : ℕ)
    (page : Page) : Except Err Page :=
  if (index : Int) < processed then
    match pyFormat cfg.pageLabelTemplate
        [("number", toString (cfg.startNumber + (index : Int))),
         ("total", toString total)] with
    | .error e => .error e
    | .ok page_label =>
      match pyFormat cfg.copyLabelTemplate [("copy_number", cfg.copyNumber)] with
      | .error e => .error e
      | .ok copy_label =>
        .ok (merge_page page
          (build_overlay_page page.width page.height page_label copy_label
            cfg.watermarkText))
  else .ok page

/-- The page loop of lines 84–99: every page, in input order, is run
through `annotate_page` (with its enumeration index) and added to the
writer; the first exception aborts the run. -/
def annotate_pages (cfg : Config) (processed total : Int) :
    ℕ → List Page → Except Err (List Page)
  | _, [] => .ok []
  | i, page :: rest =>
    match annotate_page cfg processed total i page with
    | .error e => .error e
    | .ok p2 =>
      match annotate_pages cfg processed total (i + 1) rest with
      | .error e => .error e
      | .ok r => .ok (p2 :: r)

/-- `annotate_pdf` (lines 16–103 of `processor.py`), as a function from
the configuration and the input document's pages to the composed output
document or the first exception raised.  The input-existence check and the
actual file I/O sit outside this pure core (see `annotate_run`). -/
def annotate_pdf (cfg : Config) (pages : List Page) :
    Except Err (List Page) :=
  if cfg.startNumber < 1 then
    .error (.invalidConfiguration "start_number must be at least 1")
  else
    match max_pages_check cfg with
    | .error e => .error e
    | .ok _ =>
      let ppc := processed_page_count cfg (pages.length : Int)
      match total_pages_check cfg (calculated_total cfg ppc) with
      | .error e => .error e
      | .ok _ => annotate_pages cfg ppc (resolved_total_pages cfg ppc) 0 pages

/-- Observable file-system events of a run of `annotate_pdf`. -/
inductive Ev where
  | mkdir_parent (path : String)
  | open_write (path : String)
  | write_document (path : String) (doc : List Page)
  deriving DecidableEq

/-- The effect trace of `annotate_pdf` on the destination path, mirroring
lines 84–103 of `processor.py`: the document is composed entirely in the
in-memory writer first; only on success are the destination's parent
directories created, the destination opened for writing, and the complete
composed document written in one `writer.write` call.  An exception
anywhere earlier leaves the trace empty. -/
def annotate_run (output_path : String) (cfg : Config) (pages : List Page) :
    List Ev × Except Err (List Page) :=
  match annotate_pdf cfg pages with
  | .error e => ([], .error e)
  | .ok out =>
      ([.mkdir_parent output_path, .open_write output_path,
        .write_document output_path out], .ok out)

/-- A configuration with a given copy number and every other parameter at
its source default. -/
def cfg_default (c : String) : Config := { copyNumber := c }

/-- A string is brace-free when neither curly brace occurs in it; such a
string is pure literal text for the template scanner. -/
abbrev no_brace (s : String) : Prop := lbrace ∉ s.data ∧ rbrace ∉ s.data

/-- A replacement-field keyword in its plain form: free of braces, of the
conversion and format-spec markers and of attribute/index access, and not
a positional (empty or all-digit) field. -/
def plain_key (s : String) : Bool :=
  s.data.all (fun c => !(c == ':' || c == '!' || c == '.' || c == '['
    || c == lbrace || c == rbrace)) && !is_digits s.data

/-- A field tail that CPython reads as a conversion, format spec or
attribute/index access (or nothing at all): brace-free, and empty or
starting with `!`, `:`, `.` or `[`. -/
def spec_tail (s : String) : Bool :=
  (match s.data with
   | [] => true
   | c :: _ => c == ':' || c == '!' || c == '.' || c == '[') &&
  s.data.all (fun c => !(c == lbrace || c == rbrace))

lemma except_map_error {α β : Type} {f : α → β} {x : Except Err α} {e : Err}
    (h : x.map f = .error e) : x = .error e := by
  cases x with
  | error a =>
    simp only [Except.map, Except.error.injEq] at h
    subst h
    rfl
  | ok a => simp only [Except.map] at h; exact absurd h (by simp)

/-- Field resolution never raises the configuration error: its failures
are the `KeyError` / `IndexError` of `str.format`. -/
lemma resolve_field_no_config (vars : List (String × String))
    (field : List Char) (msg : String) :
    resolve_field vars field ≠ .error (.invalidConfiguration msg) := by
  intro h
  simp only [resolve_field] at h
  split at h
  · simp at h
  · cases hlv : lookupVar vars
        (String.mk (arg_name_part (field_name_part field))) with
    | none => rw [hlv] at h; simp at h
    | some v => rw [hlv] at h; simp at h

/-- The template scanner never raises the configuration error: its failures
are the `KeyError` / `IndexError` / `ValueError` of `str.format`. -/
lemma formatAux_no_config (vars : List (String × String)) (l : List Char) :
    ∀ st msg, formatAux vars l st ≠ .error (.invalidConfiguration msg) := by
  induction l with
  | nil => intro st msg; cases st <;> simp [formatAux]
  | cons c rest ih =>
    intro st msg
    cases st with
    | lit =>
      simp only [formatAux]
      split_ifs with h1 h2
      · exact ih _ _
      · exact ih _ _
      · intro h; exact ih .lit msg (except_map_error h)
    | sawOpen =>
      simp only [formatAux]
      split_ifs with h1 h2
      · intro h; exact ih .lit msg (except_map_error h)
      · cases hr : resolve_field vars [] with
        | error e =>
          intro hcontra
          simp only [Except.error.injEq] at hcontra
          exact resolve_field_no_config vars [] msg (by rw [hr, hcontra])
        | ok v =>
          intro h; exact ih .lit msg (except_map_error h)
      · exact ih _ _
    | sawClose =>
      simp only [formatAux]
      split_ifs with h1
      · intro h; exact ih .lit msg (except_map_error h)
      · simp
    | field acc =>
      simp only [formatAux]
      split_ifs with h1
      · cases hr : resolve_field vars acc.reverse with
        | error e =>
          intro hcontra
          simp only [Except.error.injEq] at hcontra
          exact resolve_field_no_config vars acc.reverse msg (by rw [hr, hcontra])
        | ok v =>
          intro h; exact ih .lit msg (except_map_error h)
      · exact ih _ _

/-- `pyFormat` never raises the configuration error. -/
lemma pyFormat_no_config (template : String) (vars : List (String × String))
    (msg : String) : pyFormat template vars ≠ .error (.invalidConfiguration msg) := by
  intro h
  exact formatAux_no_config vars template.data .lit msg (except_map_error h)

/-- Shape of a successful `annotate_page`: below the processed count the
result is the source page with the overlay built from the two successfully
formatted labels merged on; any other page comes back untouched. -/
lemma annotate_page_ok (cfg : Config) (processed total : Int) (index : ℕ)
    (page out : Page) (h : annotate_page cfg processed total index page = .ok out) :
    ((index : Int) < processed →
      ∃ pl cl,
        pyFormat cfg.pageLabelTemplate
          [("number", toString (cfg.startNumber + (index : Int))),
           ("total", toString total)] = .ok pl ∧
        pyFormat cfg.copyLabelTemplate [("copy_number", cfg.copyNumber)] = .ok cl ∧
        out = merge_page page
          (build_overlay_page page.width page.height pl cl cfg.watermarkText)) ∧
    (¬ (index : Int) < processed → out = page) := by
  by_cases hidx : (index : Int) < processed
  · simp only [annotate_page, if_pos hidx] at h
    cases h1 : pyFormat cfg.pageLabelTemplate
        [("number", toString (cfg.startNumber + (index : Int))),
         ("total", toString total)] with
    | error e => rw [h1] at h; exact absurd h (by simp)
    | ok pl =>
      rw [h1] at h
      cases h2 : pyFormat cfg.copyLabelTemplate [("copy_number", cfg.copyNumber)] with
      | error e => rw [h2] at h; exact absurd h (by simp)
      | ok cl =>
        rw [h2] at h
        refine ⟨fun _ => ⟨pl, cl, rfl, rfl, ?_⟩, fun hc => absurd hidx hc⟩
        simpa using h.symm
  · simp only [annotate_page, if_neg hidx] at h
    simp only [Except.ok.injEq] at h
    exact ⟨fun hc => absurd hc hidx, fun _ => h.symm⟩

/-- `annotate_page` never raises the configuration error. -/
lemma annotate_page_no_config (cfg : Config) (processed total : Int)
    (index : ℕ) (page : Page) (msg : String) :
    annotate_page cfg processed total index page
      ≠ .error (.invalidConfiguration msg) := by
  intro h
  simp only [annotate_page] at h
  split at h
  · cases h1 : pyFormat cfg.pageLabelTemplate
        [("number", toString (cfg.startNumber + (index : Int))),
         ("total", toString total)] with
    | error e =>
      rw [h1] at h
      simp only [Except.error.injEq] at h
      exact pyFormat_no_config _ _ msg (by rw [h1, h])
    | ok pl =>
      rw [h1] at h
      cases h2 : pyFormat cfg.copyLabelTemplate [("copy_number", cfg.copyNumber)] with
      | error e =>
        rw [h2] at h
        simp only [Except.error.injEq] at h
        exact pyFormat_no_config _ _ msg (by rw [h2, h])
      | ok cl => rw [h2] at h; simp at h
  · simp at h

/-- Pointwise description of a successful run of the page loop: the output
has one page per input page, and the page at offset `j` is the result of
`annotate_page` at enumeration index `i + j`. -/
lemma annotate_pages_spec (cfg : Config) (p t : Int) :
    ∀ (ps : List Page) (i : ℕ) (os : List Page),
      annotate_pages cfg p t i ps = .ok os →
      os.length = ps.length ∧
      ∀ j src, ps[j]? = some src →
        ∃ o, annotate_page cfg p t (i + j) src = .ok o ∧ os[j]? = some o := by
  intro ps
  induction ps with
  | nil =>
    intro i os h
    simp only [annotate_pages] at h
    simp only [Except.ok.injEq] at h
    subst h
    exact ⟨rfl, by intro j src hj; simp at hj⟩
  | cons hd tl ih =>
    intro i os h
    simp only [annotate_pages] at h
    cases hh : annotate_page cfg p t i hd with
    | error e => rw [hh] at h; exact absurd h (by simp)
    | ok p2 =>
      rw [hh] at h
      cases ht : annotate_pages cfg p t (i + 1) tl with
      | error e => rw [ht] at h; exact absurd h (by simp)
      | ok r =>
        rw [ht] at h
        simp only [Except.ok.injEq] at h
        subst h
        obtain ⟨hlen, hspec⟩ := ih (i + 1) r ht
        refine ⟨by simp [hlen], ?_⟩
        intro j src hj
        cases j with
        | zero =>
          simp only [List.getElem?_cons_zero, Option.some.injEq] at hj
          subst hj
          exact ⟨p2, by simp only [Nat.add_zero]; exact hh, by simp⟩
        | succ j =>
          simp only [List.getElem?_cons_succ] at hj
          obtain ⟨o, ho, hos⟩ := hspec j src hj
          refine ⟨o, ?_, by simp only [List.getElem?_cons_succ]; exact hos⟩
          have : i + 1 + j = i + (j + 1) := by omega
          rwa [this] at ho

/-- The page loop never raises the configuration error. -/
lemma annotate_pages_no_config (cfg : Config) (p t : Int) :
    ∀ (ps : List Page) (i : ℕ) (msg : String),
      annotate_pages cfg p t i ps ≠ .error (.invalidConfiguration msg) := by
  intro ps
  induction ps with
  | nil => intro i msg; simp [annotate_pages]
  | cons hd tl ih =>
    intro i msg h
    simp only [annotate_pages] at h
    cases hh : annotate_page cfg p t i hd with
    | error e =>
      rw [hh] at h
      simp only [Except.error.injEq] at h
      exact annotate_page_no_config cfg p t i hd msg (by rw [hh, h])
    | ok p2 =>
      rw [hh] at h
      cases ht : annotate_pages cfg p t (i + 1) tl with
      | error e =>
        rw [ht] at h
        simp only [Except.error.injEq] at h
        exact ih (i + 1) msg (by rw [ht, h])
      | ok r => rw [ht] at h; simp at h

/-- A successful `annotate_pdf` run passed every validation check and is
the page loop's result at the plan computed from the configuration. -/
lemma annotate_pdf_ok (cfg : Config) (pages out : List Page)
    (h : annotate_pdf cfg pages = .ok out) :
    ¬ cfg.startNumber < 1 ∧
    max_pages_check cfg = .ok () ∧
    total_pages_check cfg
      (calculated_total cfg (processed_page_count cfg (pages.length : Int))) = .ok () ∧
    annotate_pages cfg (processed_page_count cfg (pages.length : Int))
      (resolved_total_pages cfg (processed_page_count cfg (pages.length : Int)))
      0 pages = .ok out := by
  by_cases hs : cfg.startNumber < 1
  · simp [annotate_pdf, hs] at h
  · simp only [annotate_pdf, if_neg hs] at h
    cases hm : max_pages_check cfg with
    | error e => rw [hm] at h; exact absurd h (by simp)
    | ok u =>
      cases u
      rw [hm] at h
      cases ht : total_pages_check cfg
          (calculated_total cfg (processed_page_count cfg (pages.length : Int))) with
      | error e => rw [ht] at h; exact absurd h (by simp)
      | ok v => cases v; rw [ht] at h; exact ⟨hs, rfl, rfl, h⟩

/-- When every validation check passes, `annotate_pdf` is the page loop
run at the computed plan. -/
lemma annotate_pdf_valid (cfg : Config) (pages : List Page)
    (hs : ¬ cfg.startNumber < 1)
    (hmc : max_pages_check cfg = .ok ())
    (htc : total_pages_check cfg
      (calculated_total cfg (processed_page_count cfg (pages.length : Int))) = .ok ()) :
    annotate_pdf cfg pages
      = annotate_pages cfg (processed_page_count cfg (pages.length : Int))
          (resolved_total_pages cfg (processed_page_count cfg (pages.length : Int)))
          0 pages := by
  simp only [annotate_pdf, if_neg hs, hmc, htc]

/-- Whether `annotate_page` succeeds does not depend on the page's
dimensions: the labels are formatted from the configuration and the plan
alone, and the overlay build itself never fails. -/
lemma annotate_page_dims (cfg : Config) (p t : Int) (i : ℕ) (pg : Page)
    (w h : ℚ) :
    (annotate_page cfg p t i { pg with width := w, height := h }).isOk
      = (annotate_page cfg p t i pg).isOk := by
  simp only [annotate_page]
  split
  · cases h1 : pyFormat cfg.pageLabelTemplate
        [("number", toString (cfg.startNumber + (i : Int))),
         ("total", toString t)] with
    | error e => rfl
    | ok pl =>
      cases h2 : pyFormat cfg.copyLabelTemplate [("copy_number", cfg.copyNumber)] with
      | error e => rfl
      | ok cl => rfl
  · rfl

/-- Whether the page loop succeeds does not depend on page dimensions. -/
lemma annotate_pages_dims (cfg : Config) (p t : Int) (w h : ℚ) :
    ∀ (ps : List Page) (i : ℕ),
      (annotate_pages cfg p t i
        (ps.map (fun pg => { pg with width := w, height := h }))).isOk
        = (annotate_pages cfg p t i ps).isOk := by
  intro ps
  induction ps with
  | nil => intro i; rfl
  | cons hd tl ih =>
    intro i
    simp only [List.map_cons, annotate_pages]
    have hhd := annotate_page_dims cfg p t i hd w h
    cases h1 : annotate_page cfg p t i hd with
    | error e =>
      cases h2 : annotate_page cfg p t i { hd with width := w, height := h } with
      | error e2 => rfl
      | ok o2 => rw [h1, h2] at hhd; simp [Except.isOk, Except.toBool] at hhd
    | ok o =>
      cases h2 : annotate_page cfg p t i { hd with width := w, height := h } with
      | error e2 => rw [h1, h2] at hhd; simp [Except.isOk, Except.toBool] at hhd
      | ok o2 =>
        have htl := ih (i + 1)
        cases h3 : annotate_pages cfg p t (i + 1) tl with
        | error e3 =>
          cases h4 : annotate_pages cfg p t (i + 1)
              (tl.map (fun pg => { pg with width := w, height := h })) with
          | error e4 => rfl
          | ok r4 => rw [h3, h4] at htl; simp [Except.isOk, Except.toBool] at htl
        | ok r3 =>
          cases h4 : annotate_pages cfg p t (i + 1)
              (tl.map (fun pg => { pg with width := w, height := h })) with
          | error e4 => rw [h3, h4] at htl; simp [Except.isOk, Except.toBool] at htl
          | ok r4 => rfl

/-- The page loop does not read the `maxPages` field of the configuration
(only the plan passed in): changing it leaves the loop unchanged. -/
lemma annotate_pages_maxPages (cfg : Config) (o1 o2 : Option Int) (p t : Int) :
    ∀ (ps : List Page) (i : ℕ),
      annotate_pages { cfg with maxPages := o1 } p t i ps
        = annotate_pages { cfg with maxPages := o2 } p t i ps := by
  intro ps
  induction ps with
  | nil => intro i; rfl
  | cons hd tl ih =>
    intro i
    simp only [annotate_pages]
    have hpg : annotate_page { cfg with maxPages := o1 } p t i hd
        = annotate_page { cfg with maxPages := o2 } p t i hd := rfl
    rw [hpg, ih (i + 1)]

/-- C1: for every call to `annotate_pdf` with start number ≥ 1 and any
provided `max_pages` ≥ 1, the processed page count is `min(max_pages, n)`
when `max_pages` is given and `n` otherwise, and when `total_pages` is not
given the resolved total used in the page labels — the one the page loop
of `annotate_pdf` receives — is `start_number + processed_page_count - 1`. -/
theorem c1_page_plan (cfg : Config) (pages : List Page)
    (hstart : 1 ≤ cfg.startNumber)
    (hmax : ∀ m, cfg.maxPages = some m → 1 ≤ m) :
    (∀ m, cfg.maxPages = some m →
      processed_page_count cfg (pages.length : Int) = min m (pages.length : Int)) ∧
    (cfg.maxPages = none →
      processed_page_count cfg (pages.length : Int) = (pages.length : Int)) ∧
    (cfg.totalPages = none →
      resolved_total_pages cfg (processed_page_count cfg (pages.length : Int))
        = cfg.startNumber + processed_page_count cfg (pages.length : Int) - 1 ∧
      annotate_pdf cfg pages
        = annotate_pages cfg (processed_page_count cfg (pages.length : Int))
            (cfg.startNumber + processed_page_count cfg (pages.length : Int) - 1)
            0 pages) := by
  refine ⟨?_, ?_, ?_⟩
  · intro m hm; simp [processed_page_count, hm]
  · intro hm; simp [processed_page_count, hm]
  · intro ht
    have hres : resolved_total_pages cfg (processed_page_count cfg (pages.length : Int))
        = cfg.startNumber + processed_page_count cfg (pages.length : Int) - 1 := by
      simp [resolved_total_pages, calculated_total, ht]
    refine ⟨hres, ?_⟩
    have hs : ¬ cfg.startNumber < 1 := by omega
    have hmc : max_pages_check cfg = .ok () := by
      unfold max_pages_check
      cases hm : cfg.maxPages with
      | none => rfl
      | some m =>
        have := hmax m hm
        simp [show ¬ m < 1 by omega]
    have htc : total_pages_check cfg
        (calculated_total cfg (processed_page_count cfg (pages.length : Int)))
        = .ok () := by
      simp [total_pages_check, ht]
    rw [annotate_pdf_valid cfg pages hs hmc htc, hres]

/-- C1 witness: a 3-page document with `max_pages = 2` and defaults
otherwise processes `min 2 3 = 2` pages and resolves the total to
`1 + 2 - 1 = 2`. -/
theorem c1_page_plan_witness :
    processed_page_count { cfg_default "CC-001" with maxPages := some 2 }
      (([⟨100, 200, ["a"]⟩, ⟨100, 200, ["b"]⟩, ⟨100, 200, ["c"]⟩] : List Page).length : Int)
      = 2 ∧
    resolved_total_pages { cfg_default "CC-001" with maxPages := some 2 }
      (processed_page_count { cfg_default "CC-001" with maxPages := some 2 }
        (([⟨100, 200, ["a"]⟩, ⟨100, 200, ["b"]⟩, ⟨100, 200, ["c"]⟩] : List Page).length : Int))
      = 2 := by
  have h := c1_page_plan { cfg_default "CC-001" with maxPages := some 2 }
    [⟨100, 200, ["a"]⟩, ⟨100, 200, ["b"]⟩, ⟨100, 200, ["c"]⟩]
    (by decide)
    (by intro m hm; simp only [Option.some.injEq] at hm; omega)
  have h1 := h.1 2 rfl
  have h2 := (h.2.2 rfl).1
  constructor
  · rw [h1]; decide
  · rw [h2, h1]; decide

/-- C2: `annotate_pdf` fails with the configuration error exactly when the
start number is below 1, a provided `max_pages` is below 1, or a provided
`total_pages` is below `start_number + processed_page_count - 1`; any
failure leaves the effect trace empty, so no output file is produced and
no page is annotated. -/
theorem c2_invalid_configuration (opath : String) (cfg : Config)
    (pages : List Page) :
    ((∃ msg, annotate_pdf cfg pages = .error (.invalidConfiguration msg)) ↔
      (cfg.startNumber < 1 ∨
       (∃ m, cfg.maxPages = some m ∧ m < 1) ∨
       (∃ t, cfg.totalPages = some t ∧
          t < cfg.startNumber + processed_page_count cfg (pages.length : Int) - 1))) ∧
    (∀ e, annotate_pdf cfg pages = .error e →
      (annotate_run opath cfg pages).1 = []) := by
  constructor
  · constructor
    · rintro ⟨msg, hmsg⟩
      by_contra hnc
      push_neg at hnc
      obtain ⟨hs, hm, ht⟩ := hnc
      have hmc : max_pages_check cfg = .ok () := by
        unfold max_pages_check
        cases hmm : cfg.maxPages with
        | none => rfl
        | some m =>
          have := hm m hmm
          simp [show ¬ m < 1 by omega]
      have htc : total_pages_check cfg
          (calculated_total cfg (processed_page_count cfg (pages.length : Int)))
          = .ok () := by
        unfold total_pages_check
        cases htt : cfg.totalPages with
        | none => rfl
        | some t =>
          have := ht t htt
          simp only [calculated_total]
          simp [show ¬ t < cfg.startNumber
            + processed_page_count cfg (pages.length : Int) - 1 by omega]
      rw [annotate_pdf_valid cfg pages (by omega) hmc htc] at hmsg
      exact annotate_pages_no_config cfg _ _ pages 0 msg hmsg
    · rintro (hs | ⟨m, hm, hm1⟩ | ⟨t, htp, htlt⟩)
      · exact ⟨"start_number must be at least 1", by simp [annotate_pdf, hs]⟩
      · by_cases hs : cfg.startNumber < 1
        · exact ⟨"start_number must be at least 1", by simp [annotate_pdf, hs]⟩
        · refine ⟨"max_pages must be a positive integer", ?_⟩
          simp [annotate_pdf, hs, max_pages_check, hm, hm1]
      · by_cases hs : cfg.startNumber < 1
        · exact ⟨"start_number must be at least 1", by simp [annotate_pdf, hs]⟩
        · cases hmc : max_pages_check cfg with
          | error e =>
            have : e = .invalidConfiguration "max_pages must be a positive integer" := by
              unfold max_pages_check at hmc
              cases hmm : cfg.maxPages with
              | none => rw [hmm] at hmc; simp at hmc
              | some m =>
                rw [hmm] at hmc
                by_cases h1 : m < 1
                · simp only [if_pos h1, Except.error.injEq] at hmc; exact hmc.symm
                · simp [if_neg h1] at hmc
            refine ⟨"max_pages must be a positive integer", ?_⟩
            simp only [annotate_pdf, if_neg hs, hmc, this]
          | ok u =>
            cases u
            refine ⟨"total_pages is smaller than the number of pages that will be numbered.",
              ?_⟩
            have htc : total_pages_check cfg
                (calculated_total cfg (processed_page_count cfg (pages.length : Int)))
                = .error (.invalidConfiguration
                  "total_pages is smaller than the number of pages that will be numbered.") := by
              unfold total_pages_check
              rw [htp]
              simp only [calculated_total]
              simp [show t < cfg.startNumber
                + processed_page_count cfg (pages.length : Int) - 1 from htlt]
            simp only [annotate_pdf, if_neg hs, hmc, htc]
  · intro e he
    simp [annotate_run, he]

/-- C2 witness: `start_number = 0` is rejected with the configuration
error, and the effect trace of that failing run is empty. -/
theorem c2_invalid_configuration_witness :
    (∃ msg, annotate_pdf { cfg_default "CC-001" with startNumber := 0 }
      [⟨100, 200, ["a"]⟩] = .error (.invalidConfiguration msg)) ∧
    (annotate_run "out.pdf" { cfg_default "CC-001" with startNumber := 0 }
      [⟨100, 200, ["a"]⟩]).1 = [] := by
  have h := c2_invalid_configuration "out.pdf"
    { cfg_default "CC-001" with startNumber := 0 } [⟨100, 200, ["a"]⟩]
  have herr := h.1.mpr (Or.inl (by decide))
  refine ⟨herr, ?_⟩
  obtain ⟨msg, hmsg⟩ := herr
  exact h.2 _ hmsg

/-- C3: every successful `annotate_pdf` run returns one output page per
input page, in input order — each output page keeps the corresponding
source page's dimensions and starts with its full source content (an
annotated page only appends overlay text) — and providing `max_pages`
never changes the output page count. -/
theorem c3_output_preserves_pages (cfg : Config) (pages out : List Page)
    (h : annotate_pdf cfg pages = .ok out) :
    out.length = pages.length ∧
    (∀ (i : ℕ) (src : Page), pages[i]? = some src →
      ∃ (o : Page) (extra : List String), out[i]? = some o ∧ o.width = src.width ∧
        o.height = src.height ∧ o.content = src.content ++ extra) ∧
    (∀ m out2, annotate_pdf { cfg with maxPages := some m } pages = .ok out2 →
      out2.length = pages.length) := by
  have h4 := (annotate_pdf_ok cfg pages out h).2.2.2
  obtain ⟨hlen, hspec⟩ := annotate_pages_spec cfg _ _ pages 0 out h4
  refine ⟨hlen, ?_, ?_⟩
  · intro i src hsrc
    obtain ⟨o, ho, hos⟩ := hspec i src hsrc
    obtain ⟨hyes, hno⟩ := annotate_page_ok cfg _ _ _ src o ho
    by_cases hidx : ((0 + i : ℕ) : Int) < processed_page_count cfg (pages.length : Int)
    · obtain ⟨pl, cl, _, _, heq⟩ := hyes hidx
      exact ⟨o, _, hos, by rw [heq]; rfl, by rw [heq]; rfl, by rw [heq]; rfl⟩
    · exact ⟨o, [], hos, by rw [hno hidx], by rw [hno hidx], by rw [hno hidx]; simp⟩
  · intro m out2 h2
    have h5 := (annotate_pdf_ok _ pages out2 h2).2.2.2
    exact (annotate_pages_spec _ _ _ pages 0 out2 h5).1

/-- C3 witness: a 4-page input with `max_pages = 2` yields 4 output pages,
each carrying its source dimensions and content. -/
theorem c3_output_preserves_pages_witness :
    ∃ out, annotate_pdf { cfg_default "CC-002" with maxPages := some 2, totalPages := some 5 }
      [⟨10, 10, ["p1"]⟩, ⟨10, 10, ["p2"]⟩, ⟨10, 10, ["p3"]⟩, ⟨10, 10, ["p4"]⟩] = .ok out ∧
      out.length = 4 := by
  refine ⟨[⟨10, 10, ["p1", "Copy No: CC-002", "Page 1 / 5", "Controlled Copy"]⟩,
           ⟨10, 10, ["p2", "Copy No: CC-002", "Page 2 / 5", "Controlled Copy"]⟩,
           ⟨10, 10, ["p3"]⟩, ⟨10, 10, ["p4"]⟩], by decide, ?_⟩
  have h := c3_output_preserves_pages
    { cfg_default "CC-002" with maxPages := some 2, totalPages := some 5 }
    [⟨10, 10, ["p1"]⟩, ⟨10, 10, ["p2"]⟩, ⟨10, 10, ["p3"]⟩, ⟨10, 10, ["p4"]⟩]
    [⟨10, 10, ["p1", "Copy No: CC-002", "Page 1 / 5", "Controlled Copy"]⟩,
     ⟨10, 10, ["p2", "Copy No: CC-002", "Page 2 / 5", "Controlled Copy"]⟩,
     ⟨10, 10, ["p3"]⟩, ⟨10, 10, ["p4"]⟩] (by decide)
  exact h.1.trans (by decide)

/-- C6: no event reaches the destination until the whole document is
composed: a failing run has an empty effect trace (no file, not even the
directory creation), and a successful run's trace is exactly the
idempotent parent-directory creation, one open of the destination, and
one write of the completely composed document (one page per input page). -/
theorem c6_compose_before_write (opath : String) (cfg : Config)
    (pages : List Page) :
    (∀ e, annotate_pdf cfg pages = .error e →
      (annotate_run opath cfg pages).1 = []) ∧
    (∀ out, annotate_pdf cfg pages = .ok out →
      (annotate_run opath cfg pages).1
        = [.mkdir_parent opath, .open_write opath, .write_document opath out] ∧
      out.length = pages.length) := by
  constructor
  · intro e he; simp [annotate_run, he]
  · intro out hout
    refine ⟨by simp [annotate_run, hout], ?_⟩
    have h4 := (annotate_pdf_ok cfg pages out hout).2.2.2
    exact (annotate_pages_spec cfg _ _ pages 0 out h4).1

/-- C6 witness: on a 1-page document the trace is the directory creation,
the open, and a single write of the fully annotated document. -/
theorem c6_compose_before_write_witness :
    (annotate_run "out.pdf" (cfg_default "CC-001") [⟨100, 200, ["a"]⟩]).1
      = [.mkdir_parent "out.pdf", .open_write "out.pdf",
         .write_document "out.pdf"
           [⟨100, 200, ["a", "Copy No: CC-001", "Page 1 / 1", "Controlled Copy"]⟩]] := by
  exact ((c6_compose_before_write "out.pdf" (cfg_default "CC-001")
    [⟨100, 200, ["a"]⟩]).2
    [⟨100, 200, ["a", "Copy No: CC-001", "Page 1 / 1", "Controlled Copy"]⟩]
    (by decide)).1

/-- C4: in every successful run, the page at index `i` is annotated iff
`i < processed_page_count`; an annotated page becomes the source page with
the overlay merged on, whose page label is the page-label template with
`number` replaced by `start_number + i` and `total` by the resolved total,
and whose copy label is the copy-label template with `copy_number`
replaced by the copy number; any other page is returned unchanged. -/
theorem c4_page_decisions (cfg : Config) (pages out : List Page)
    (h : annotate_pdf cfg pages = .ok out) :
    ∀ (i : ℕ) (src : Page), pages[i]? = some src →
      (((i : Int) < processed_page_count cfg (pages.length : Int) →
        ∃ (pl cl : String),
          pyFormat cfg.pageLabelTemplate
            [("number", toString (cfg.startNumber + (i : Int))),
             ("total", toString (resolved_total_pages cfg
               (processed_page_count cfg (pages.length : Int))))] = .ok pl ∧
          pyFormat cfg.copyLabelTemplate [("copy_number", cfg.copyNumber)] = .ok cl ∧
          out[i]? = some (merge_page src
            (build_overlay_page src.width src.height pl cl cfg.watermarkText))) ∧
      (¬ (i : Int) < processed_page_count cfg (pages.length : Int) →
        out[i]? = some src)) := by
  have h4 := (annotate_pdf_ok cfg pages out h).2.2.2
  obtain ⟨hlen, hspec⟩ := annotate_pages_spec cfg _ _ pages 0 out h4
  intro i src hsrc
  obtain ⟨o, ho, hos⟩ := hspec i src hsrc
  obtain ⟨hyes, hno⟩ := annotate_page_ok cfg _ _ _ src o ho
  constructor
  · intro hidx
    have hidx0 : (((0 + i : ℕ) : Int))
        < processed_page_count cfg (pages.length : Int) := by simpa using hidx
    obtain ⟨pl, cl, h1, h2, heq⟩ := hyes hidx0
    refine ⟨pl, cl, ?_, h2, by rw [← heq]; exact hos⟩
    simpa using h1
  · intro hidx
    have hidx0 : ¬ (((0 + i : ℕ) : Int))
        < processed_page_count cfg (pages.length : Int) := by simpa using hidx
    exact (hno hidx0) ▸ hos

/-- C4 witness: the spec scenario — 3-page input, copy number CC-001,
defaults otherwise — puts "Page 2 / 3", "Copy No: CC-001" and
"Controlled Copy" on the middle page. -/
theorem c4_page_decisions_witness :
    annotate_pdf (cfg_default "CC-001")
        [⟨100, 200, ["a"]⟩, ⟨100, 200, ["b"]⟩, ⟨100, 200, ["c"]⟩]
      = .ok [⟨100, 200, ["a", "Copy No: CC-001", "Page 1 / 3", "Controlled Copy"]⟩,
             ⟨100, 200, ["b", "Copy No: CC-001", "Page 2 / 3", "Controlled Copy"]⟩,
             ⟨100, 200, ["c", "Copy No: CC-001", "Page 3 / 3", "Controlled Copy"]⟩] ∧
    ([⟨100, 200, ["a", "Copy No: CC-001", "Page 1 / 3", "Controlled Copy"]⟩,
      ⟨100, 200, ["b", "Copy No: CC-001", "Page 2 / 3", "Controlled Copy"]⟩,
      ⟨100, 200, ["c", "Copy No: CC-001", "Page 3 / 3", "Controlled Copy"]⟩]
        : List Page)[1]?
      = some ⟨100, 200, ["b", "Copy No: CC-001", "Page 2 / 3", "Controlled Copy"]⟩ := by
  constructor
  · decide
  · have h := c4_page_decisions (cfg_default "CC-001")
      [⟨100, 200, ["a"]⟩, ⟨100, 200, ["b"]⟩, ⟨100, 200, ["c"]⟩]
      [⟨100, 200, ["a", "Copy No: CC-001", "Page 1 / 3", "Controlled Copy"]⟩,
       ⟨100, 200, ["b", "Copy No: CC-001", "Page 2 / 3", "Controlled Copy"]⟩,
       ⟨100, 200, ["c", "Copy No: CC-001", "Page 3 / 3", "Controlled Copy"]⟩]
      (by decide)
    obtain ⟨pl, cl, hpl, hcl, hout⟩ := (h 1 ⟨100, 200, ["b"]⟩ (by decide)).1 (by decide)
    have hplv : pl = "Page 2 / 3" := by
      have := hpl.symm.trans (show pyFormat (cfg_default "CC-001").pageLabelTemplate
        [("number", toString ((cfg_default "CC-001").startNumber + ((1 : ℕ) : Int))),
         ("total", toString (resolved_total_pages (cfg_default "CC-001")
           (processed_page_count (cfg_default "CC-001")
             (([⟨100, 200, ["a"]⟩, ⟨100, 200, ["b"]⟩, ⟨100, 200, ["c"]⟩]
               : List Page).length : Int))))] = .ok "Page 2 / 3" by decide)
      simpa using this
    have hclv : cl = "Copy No: CC-001" := by
      have := hcl.symm.trans (show pyFormat (cfg_default "CC-001").copyLabelTemplate
        [("copy_number", (cfg_default "CC-001").copyNumber)]
          = .ok "Copy No: CC-001" by decide)
      simpa using this
    subst hplv hclv
    exact hout.trans (by decide)

/-- C5 counterexample: the unannotated pass-through page keeps whatever
text the source already had — here the source's second page itself
contains the watermark string "Controlled Copy", so the output page at an
index at or beyond the processed count does contain an annotation string,
contradicting the claim as stated. -/
theorem c5_counterexample :
    annotate_pdf { cfg_default "CC-001" with maxPages := some 1 }
      [⟨100, 200, ["a"]⟩, ⟨100, 200, ["Controlled Copy"]⟩]
      = .ok [⟨100, 200, ["a", "Copy No: CC-001", "Page 1 / 1", "Controlled Copy"]⟩,
             ⟨100, 200, ["Controlled Copy"]⟩] ∧
    processed_page_count { cfg_default "CC-001" with maxPages := some 1 } 2 = 1 ∧
    "Controlled Copy" ∈ (Page.mk 100 200 ["Controlled Copy"]).content := by
  refine ⟨by decide, by decide, by decide⟩

/-- C5 (amended): every page at an index at or beyond the processed count
passes through to the output completely unmodified — the output page IS
the source page, so no overlay is merged and no annotation string is added
to it; it therefore contains no watermark, copy-label or page-label string
unless that string was already present in the source page. -/
theorem c5_pass_through (cfg : Config) (pages out : List Page)
    (h : annotate_pdf cfg pages = .ok out) :
    ∀ (i : ℕ) (src : Page), pages[i]? = some src →
      processed_page_count cfg (pages.length : Int) ≤ (i : Int) →
      out[i]? = some src ∧
      (∀ s : String, s ∉ src.content →
        ∀ o : Page, out[i]? = some o → s ∉ o.content) := by
  have h4 := (annotate_pdf_ok cfg pages out h).2.2.2
  obtain ⟨hlen, hspec⟩ := annotate_pages_spec cfg _ _ pages 0 out h4
  intro i src hsrc hge
  obtain ⟨o, ho, hos⟩ := hspec i src hsrc
  have hno := (annotate_page_ok cfg _ _ _ src o ho).2
    (by simp only [Nat.zero_add]; omega)
  subst hno
  refine ⟨hos, ?_⟩
  intro s hs o2 ho2
  have : o2 = o := by
    rw [hos] at ho2
    simpa using ho2.symm
  subst this
  exact hs

/-- C5 witness: with `max_pages = 1` on a 2-page document the second page
comes through as the untouched source page. -/
theorem c5_pass_through_witness :
    ([⟨100, 200, ["a", "Copy No: CC-001", "Page 1 / 1", "Controlled Copy"]⟩,
      ⟨100, 200, ["b"]⟩] : List Page)[1]? = some ⟨100, 200, ["b"]⟩ := by
  exact ((c5_pass_through { cfg_default "CC-001" with maxPages := some 1 }
    [⟨100, 200, ["a"]⟩, ⟨100, 200, ["b"]⟩]
    [⟨100, 200, ["a", "Copy No: CC-001", "Page 1 / 1", "Controlled Copy"]⟩,
     ⟨100, 200, ["b"]⟩]
    (by decide)) 1 ⟨100, 200, ["b"]⟩ (by decide) (by decide)).1

/-- C7 counterexample: `_build_overlay_page` contains no geometry
validation at all — on a page reporting the non-positive dimensions
(-1, -1), `annotate_pdf` silently succeeds and merges an overlay rather
than failing with any geometry error. -/
theorem c7_counterexample :
    annotate_pdf (cfg_default "CC-001") [⟨-1, -1, ["x"]⟩]
      = .ok [⟨-1, -1, ["x", "Copy No: CC-001", "Page 1 / 1", "Controlled Copy"]⟩] := by
  decide

/-- C7 (amended): overlay rendering always succeeds — the code never
inspects the page dimensions for validity, so whether `annotate_pdf`
succeeds is completely independent of the pages' widths and heights,
including non-positive ones. -/
theorem c7_no_geometry_validation (cfg : Config) (pages : List Page)
    (w h : ℚ) :
    (annotate_pdf cfg
        (pages.map (fun pg => { pg with width := w, height := h }))).isOk
      = (annotate_pdf cfg pages).isOk := by
  have hlen : (pages.map
      (fun pg => ({ pg with width := w, height := h } : Page))).length
      = pages.length := by simp
  simp only [annotate_pdf, hlen]
  split
  · rfl
  · cases hmc : max_pages_check cfg with
    | error e => rfl
    | ok u =>
      cases u
      cases htc : total_pages_check cfg
          (calculated_total cfg (processed_page_count cfg (pages.length : Int))) with
      | error e => rfl
      | ok v =>
        cases v
        exact annotate_pages_dims cfg _ _ w h pages 0

/-- C10 counterexample: on a 0-page document, `max_pages = 0` satisfies
`max_pages ≥ n` yet is rejected by the positivity check, while the same
call without `max_pages` succeeds — the two calls do not behave
identically. -/
theorem c10_counterexample :
    annotate_pdf { cfg_default "CC-001" with maxPages := some 0 } []
      = .error (.invalidConfiguration "max_pages must be a positive integer") ∧
    annotate_pdf (cfg_default "CC-001") [] = .ok [] ∧
    (([] : List Page).length : Int) ≤ 0 := by
  refine ⟨by decide, by decide, by decide⟩

/-- C10 (amended): for `max_pages ≥ 1` with `max_pages ≥ n`, the call
behaves identically to the same call with `max_pages` omitted — the same
result document or error, and the same effect trace. -/
theorem c10_max_at_least_count (cfg : Config) (pages : List Page) (m : Int)
    (h1 : 1 ≤ m) (h2 : (pages.length : Int) ≤ m) :
    annotate_pdf { cfg with maxPages := some m } pages
      = annotate_pdf { cfg with maxPages := none } pages ∧
    ∀ opath, annotate_run opath { cfg with maxPages := some m } pages
      = annotate_run opath { cfg with maxPages := none } pages := by
  have hmain : annotate_pdf { cfg with maxPages := some m } pages
      = annotate_pdf { cfg with maxPages := none } pages := by
    simp only [annotate_pdf]
    split
    · rfl
    · have hmcL : max_pages_check { cfg with maxPages := some m } = .ok () := by
        simp [max_pages_check, show ¬ m < 1 by omega]
      rw [hmcL]
      rw [show max_pages_check { cfg with maxPages := none } = Except.ok () from rfl]
      have hppcL : processed_page_count { cfg with maxPages := some m }
          (pages.length : Int) = (pages.length : Int) := by
        simp only [processed_page_count]
        omega
      have hppcR : processed_page_count { cfg with maxPages := none }
          (pages.length : Int) = (pages.length : Int) := rfl
      rw [hppcL, hppcR]
      rw [show calculated_total { cfg with maxPages := some m } (pages.length : Int)
          = calculated_total { cfg with maxPages := none } (pages.length : Int) from rfl]
      rw [show total_pages_check { cfg with maxPages := some m }
            (calculated_total { cfg with maxPages := none } (pages.length : Int))
          = total_pages_check { cfg with maxPages := none }
            (calculated_total { cfg with maxPages := none } (pages.length : Int)) from rfl]
      rw [show resolved_total_pages { cfg with maxPages := some m } (pages.length : Int)
          = resolved_total_pages { cfg with maxPages := none } (pages.length : Int) from rfl]
      cases total_pages_check { cfg with maxPages := none }
          (calculated_total { cfg with maxPages := none } (pages.length : Int)) with
      | error e => rfl
      | ok v => exact annotate_pages_maxPages cfg (some m) none _ _ pages 0
  refine ⟨hmain, ?_⟩
  intro opath
  simp [annotate_run, hmain]

/-- C10 witness: `max_pages = 5` on a 2-page document behaves exactly like
omitting `max_pages`. -/
theorem c10_max_at_least_count_witness :
    annotate_pdf { cfg_default "CC-001" with maxPages := some 5 }
      [⟨100, 200, ["a"]⟩, ⟨100, 200, ["b"]⟩]
      = annotate_pdf { cfg_default "CC-001" with maxPages := none }
        [⟨100, 200, ["a"]⟩, ⟨100, 200, ["b"]⟩] := by
  exact (c10_max_at_least_count (cfg_default "CC-001")
    [⟨100, 200, ["a"]⟩, ⟨100, 200, ["b"]⟩] 5 (by decide) (by decide)).1

lemma string_mk_data (s : String) : String.mk s.data = s := rfl

lemma string_data_append (s t : String) : (s ++ t).data = s.data ++ t.data := by
  cases s
  cases t
  rfl

/-- Scanning brace-free literal text just copies it to the output. -/
lemma formatAux_lit_of_no_brace (vars : List (String × String))
    (pre : List Char) (h1 : lbrace ∉ pre) (h2 : rbrace ∉ pre)
    (rest : List Char) :
    formatAux vars (pre ++ rest) .lit
      = (formatAux vars rest .lit).map (fun r => pre ++ r) := by
  induction pre with
  | nil =>
    simp only [List.nil_append]
    cases formatAux vars rest .lit <;> simp [Except.map]
  | cons c cs ih =>
    have hc1 : ¬ c = lbrace := fun hh => h1 (by simp [hh])
    have hc2 : ¬ c = rbrace := fun hh => h2 (by simp [hh])
    have ih2 := ih (fun hh => h1 (List.mem_cons_of_mem _ hh))
      (fun hh => h2 (List.mem_cons_of_mem _ hh))
    simp only [List.cons_append, formatAux, if_neg hc1, if_neg hc2,
      List.append_eq]
    rw [ih2]
    cases formatAux vars rest .lit <;> simp [Except.map]

/-- Inside a field, characters other than the closing brace are
accumulated into the field name. -/
lemma formatAux_field_shift (vars : List (String × String))
    (cs : List Char) (hcs : rbrace ∉ cs) (acc rest : List Char) :
    formatAux vars (cs ++ rest) (.field acc)
      = formatAux vars rest (.field (cs.reverse ++ acc)) := by
  induction cs generalizing acc with
  | nil => simp
  | cons c cs2 ih =>
    have hc : ¬ c = rbrace := fun hh => hcs (by simp [hh])
    have ih2 := ih (fun hh => hcs (List.mem_cons_of_mem _ hh)) (c :: acc)
    have harg : cs2.reverse ++ c :: acc = (c :: cs2).reverse ++ acc := by simp
    simp only [List.cons_append, formatAux, if_neg hc, List.append_eq]
    rw [ih2, harg]

/-- Scanning one whole replacement field `\x7bfield\x7d`: the scanner
hands the brace-free field text to `resolve_field` and splices a resolved
value into the output. -/
lemma formatAux_field_resolution (vars : List (String × String))
    (field : String) (hnb1 : lbrace ∉ field.data)
    (hnb2 : rbrace ∉ field.data) (rest : List Char) :
    formatAux vars (lbrace :: (field.data ++ rbrace :: rest)) .lit
      = match resolve_field vars field.data with
        | .error e => .error e
        | .ok v => (formatAux vars rest .lit).map (fun r => v ++ r) := by
  rw [show formatAux vars (lbrace :: (field.data ++ rbrace :: rest)) .lit
      = formatAux vars (field.data ++ rbrace :: rest) .sawOpen from by
    simp [formatAux]]
  cases hnd : field.data with
  | nil =>
    have e1 : ¬ rbrace = lbrace := by decide
    simp only [List.nil_append, formatAux, if_neg e1, eq_self_iff_true,
      if_true]
  | cons c cs =>
    rw [hnd] at hnb1 hnb2
    have hc1 : ¬ c = lbrace := fun hh => hnb1 (by simp [hh])
    have hc2 : ¬ c = rbrace := fun hh => hnb2 (by simp [hh])
    simp only [List.cons_append, formatAux, if_neg hc1, if_neg hc2,
      List.append_eq]
    rw [formatAux_field_shift vars cs
      (fun hh => hnb2 (List.mem_cons_of_mem _ hh)) [c] (rbrace :: rest)]
    simp only [formatAux, eq_self_iff_true, if_true]
    have hrev : (cs.reverse ++ [c]).reverse = c :: cs := by simp
    rw [hrev]

/-- A brace-free template formats to itself, whatever the keywords. -/
lemma pyFormat_of_no_brace (vars : List (String × String)) (s : String)
    (hs : no_brace s) : pyFormat s vars = .ok s := by
  unfold pyFormat
  have hlit := formatAux_lit_of_no_brace vars s.data hs.1 hs.2 []
  rw [List.append_nil] at hlit
  rw [hlit, show formatAux vars ([] : List Char) .lit = Except.ok [] from rfl]
  simp only [Except.map, List.append_nil, string_mk_data]

/-- A template made of brace-free text around one replacement field
formats to the field's resolution spliced between the surrounding text,
or to the resolution's error. -/
lemma pyFormat_single_field (vars : List (String × String))
    (pre post field : String) (hpre : no_brace pre) (hpost : no_brace post)
    (hfield : no_brace field) :
    pyFormat (pre ++ "\x7b" ++ field ++ "\x7d" ++ post) vars
      = match resolve_field vars field.data with
        | .error e => .error e
        | .ok v => .ok (pre ++ String.mk v ++ post) := by
  unfold pyFormat
  have hdata : (pre ++ "\x7b" ++ field ++ "\x7d" ++ post).data
      = pre.data ++ (lbrace :: (field.data ++ rbrace :: post.data)) := by
    simp only [string_data_append]
    simp only [show ('\x7b' : Char) = lbrace from by decide,
      show ('\x7d' : Char) = rbrace from by decide]
    simp
  rw [hdata,
    formatAux_lit_of_no_brace vars pre.data hpre.1 hpre.2 _,
    formatAux_field_resolution vars field hfield.1 hfield.2 post.data]
  cases hr : resolve_field vars field.data with
  | error e => simp [Except.map]
  | ok v =>
    have hp := formatAux_lit_of_no_brace vars post.data hpost.1 hpost.2 []
    rw [List.append_nil] at hp
    rw [hp, show formatAux vars ([] : List Char) .lit = Except.ok [] from rfl]
    simp only [Except.map, List.append_nil]
    have hstr : String.mk (pre.data ++ (v ++ post.data))
        = pre ++ String.mk v ++ post := by
      cases pre with | mk l1 =>
      cases post with | mk l3 =>
      rw [show String.mk l1 ++ String.mk v = String.mk (l1 ++ v) from rfl,
        show String.mk (l1 ++ v) ++ String.mk l3
          = String.mk ((l1 ++ v) ++ l3) from rfl,
        List.append_assoc]
    rw [hstr]

lemma string_append_assoc (a b c : String) : a ++ b ++ c = a ++ (b ++ c) := by
  cases a with | mk l1 =>
  cases b with | mk l2 =>
  cases c with | mk l3 =>
  show String.mk ((l1 ++ l2) ++ l3) = String.mk (l1 ++ (l2 ++ l3))
  rw [List.append_assoc]

lemma takeWhile_append_all (p : Char → Bool) (l1 l2 : List Char)
    (h : ∀ a ∈ l1, p a = true) :
    (l1 ++ l2).takeWhile p = l1 ++ l2.takeWhile p := by
  induction l1 with
  | nil => simp
  | cons a l ih =>
    have ha := h a (by simp)
    rw [List.cons_append, List.takeWhile_cons, if_pos ha,
      ih (fun b hb => h b (by simp [hb]))]
    rfl

lemma takeWhile_all (p : Char → Bool) (l : List Char)
    (h : ∀ a ∈ l, p a = true) : l.takeWhile p = l := by
  have := takeWhile_append_all p l [] h
  simpa using this

/-- The keyword extracted from a field `arg ++ tail` is `arg` when `arg`
is free of the marker characters and `tail` is empty or starts with one of
them. -/
lemma arg_name_of_field (arg tail : List Char)
    (h1 : ∀ a ∈ arg, (!(a == ':' || a == '!')) = true)
    (h2 : ∀ a ∈ arg, (!(a == '.' || a == '[')) = true)
    (htail : tail = [] ∨ ∃ c cs, tail = c :: cs ∧
      (c = ':' ∨ c = '!' ∨ c = '.' ∨ c = '[')) :
    arg_name_part (field_name_part (arg ++ tail)) = arg := by
  unfold field_name_part arg_name_part
  rw [takeWhile_append_all _ arg tail h1]
  rcases htail with rfl | ⟨c, cs, rfl, hc⟩
  · rw [List.takeWhile_nil, List.append_nil]
    exact takeWhile_all _ arg h2
  · rcases hc with rfl | rfl | rfl | rfl
    · rw [List.takeWhile_cons, if_neg (by decide), List.append_nil]
      exact takeWhile_all _ arg h2
    · rw [List.takeWhile_cons, if_neg (by decide), List.append_nil]
      exact takeWhile_all _ arg h2
    · rw [List.takeWhile_cons, if_pos (by decide),
        takeWhile_append_all _ arg _ h2,
        List.takeWhile_cons, if_neg (by decide), List.append_nil]
    · rw [List.takeWhile_cons, if_pos (by decide),
        takeWhile_append_all _ arg _ h2,
        List.takeWhile_cons, if_neg (by decide), List.append_nil]

/-- Resolving a field whose keyword is a non-positional name: the keyword
alone is looked up, whatever conversion, spec or attribute/index tail
follows it. -/
lemma resolve_field_keyword (vars : List (String × String))
    (arg tail : List Char)
    (h1 : ∀ a ∈ arg, (!(a == ':' || a == '!')) = true)
    (h2 : ∀ a ∈ arg, (!(a == '.' || a == '[')) = true)
    (htail : tail = [] ∨ ∃ c cs, tail = c :: cs ∧
      (c = ':' ∨ c = '!' ∨ c = '.' ∨ c = '['))
    (hdg : is_digits arg = false) :
    resolve_field vars (arg ++ tail)
      = match lookupVar vars (String.mk arg) with
        | none => .error (.keyError (String.mk arg))
        | some v => .ok v.data := by
  simp only [resolve_field, arg_name_of_field arg tail h1 h2 htail]
  rw [if_neg (by simp [hdg])]

/-- Resolving a positional field (empty or all-digit keyword): an
`IndexError`, since `annotate_pdf` supplies no positional arguments. -/
lemma resolve_field_positional (vars : List (String × String))
    (arg tail : List Char)
    (h1 : ∀ a ∈ arg, (!(a == ':' || a == '!')) = true)
    (h2 : ∀ a ∈ arg, (!(a == '.' || a == '[')) = true)
    (htail : tail = [] ∨ ∃ c cs, tail = c :: cs ∧
      (c = ':' ∨ c = '!' ∨ c = '.' ∨ c = '['))
    (hdg : is_digits arg = true) :
    resolve_field vars (arg ++ tail)
      = .error (.indexError ("Replacement index "
          ++ (if arg.isEmpty then "0" else String.mk arg)
          ++ " out of range for positional args tuple")) := by
  simp only [resolve_field, arg_name_of_field arg tail h1 h2 htail]
  rw [if_pos hdg]

/-- Unpacking of `plain_key` into the per-character facts the resolution
lemmas consume. -/
lemma plain_key_spec (s : String) (h : plain_key s = true) :
    (∀ a ∈ s.data, (!(a == ':' || a == '!')) = true) ∧
    (∀ a ∈ s.data, (!(a == '.' || a == '[')) = true) ∧
    lbrace ∉ s.data ∧ rbrace ∉ s.data ∧ is_digits s.data = false := by
  unfold plain_key at h
  rw [Bool.and_eq_true] at h
  obtain ⟨hall, hdg⟩ := h
  rw [List.all_eq_true] at hall
  have hcomp : ∀ a ∈ s.data, ¬ a = ':' ∧ ¬ a = '!' ∧ ¬ a = '.' ∧ ¬ a = '['
      ∧ ¬ a = lbrace ∧ ¬ a = rbrace := by
    intro a ha
    have hh := hall a ha
    simpa [and_assoc] using hh
  refine ⟨?_, ?_, ?_, ?_, by simpa using hdg⟩
  · intro a ha
    have hc := hcomp a ha
    simp [hc.1, hc.2.1]
  · intro a ha
    have hc := hcomp a ha
    simp [hc.2.2.1, hc.2.2.2.1]
  · intro hmem
    exact (hcomp _ hmem).2.2.2.2.1 rfl
  · intro hmem
    exact (hcomp _ hmem).2.2.2.2.2 rfl

/-- Unpacking of `spec_tail` into the shape the resolution lemmas
consume. -/
lemma spec_tail_spec (s : String) (h : spec_tail s = true) :
    lbrace ∉ s.data ∧ rbrace ∉ s.data ∧
    (s.data = [] ∨ ∃ c cs, s.data = c :: cs ∧
      (c = ':' ∨ c = '!' ∨ c = '.' ∨ c = '[')) := by
  unfold spec_tail at h
  rw [Bool.and_eq_true] at h
  obtain ⟨hhead, hall⟩ := h
  rw [List.all_eq_true] at hall
  have hcomp : ∀ a ∈ s.data, ¬ a = lbrace ∧ ¬ a = rbrace := by
    intro a ha
    have hh := hall a ha
    simpa using hh
  refine ⟨fun hmem => (hcomp _ hmem).1 rfl, fun hmem => (hcomp _ hmem).2 rfl, ?_⟩
  cases hd : s.data with
  | nil => exact Or.inl rfl
  | cons c cs =>
    rw [hd] at hhead
    refine Or.inr ⟨c, cs, rfl, ?_⟩
    simpa [or_assoc] using hhead

/-- All-digit keywords satisfy the marker-freedom conditions of the
resolution lemmas and contain no brace. -/
lemma digits_key_spec (s : String) (h : is_digits s.data = true) :
    (∀ a ∈ s.data, (!(a == ':' || a == '!')) = true) ∧
    (∀ a ∈ s.data, (!(a == '.' || a == '[')) = true) ∧
    lbrace ∉ s.data ∧ rbrace ∉ s.data := by
  unfold is_digits at h
  rw [List.all_eq_true] at h
  refine ⟨?_, ?_, ?_, ?_⟩
  · intro a ha
    have hd := h a ha
    by_cases h1 : a = ':'
    · subst h1; exact absurd hd (by decide)
    · by_cases h2 : a = '!'
      · subst h2; exact absurd hd (by decide)
      · simp [h1, h2]
  · intro a ha
    have hd := h a ha
    by_cases h1 : a = '.'
    · subst h1; exact absurd hd (by decide)
    · by_cases h2 : a = '['
      · subst h2; exact absurd hd (by decide)
      · simp [h1, h2]
  · intro hmem
    exact absurd (h _ hmem) (by decide)
  · intro hmem
    exact absurd (h _ hmem) (by decide)

/-- C8 counterexample: a template referencing the unknown placeholder
`foo` makes `annotate_pdf` fail with `KeyError("foo")` — the error payload
is the offending placeholder name, not the offending template string. -/
theorem c8_counterexample :
    annotate_pdf { cfg_default "CC-001" with pageLabelTemplate := "Page {foo}" }
      [⟨100, 200, ["a"]⟩]
      = .error (.keyError "foo") ∧
    "foo" ≠ "Page {foo}" := by
  refine ⟨by decide, by decide⟩

/-- C8 (amended): substitution resolves a replacement field by its
keyword — the field text before any conversion (`!`), format spec (`:`)
or attribute/index access (`.`/`[`) — and recognizes exactly `number` and
`total` for the page label and `copy_number` for the copy label: around
brace-free text, a field whose keyword is any other non-positional name
fails with a `KeyError` carrying that keyword (not the template string),
whatever tail follows it; an empty or all-digit keyword is a positional
field and fails with an `IndexError`, since `annotate_pdf` supplies no
positional arguments; a recognized placeholder a template does not
reference is simply omitted: the result does not depend on its value, and
a field-free template passes through unchanged. -/
theorem c8_template_placeholders (pre post key tail : String) (n t : Int)
    (c : String) (hpre : no_brace pre) (hpost : no_brace post)
    (hkey : plain_key key = true) (htail : spec_tail tail = true) :
    (key ∉ (["number", "total"] : List String) →
      pyFormat (pre ++ "\x7b" ++ key ++ tail ++ "\x7d" ++ post)
        [("number", toString n), ("total", toString t)]
        = .error (.keyError key)) ∧
    (key ≠ "copy_number" →
      pyFormat (pre ++ "\x7b" ++ key ++ tail ++ "\x7d" ++ post)
        [("copy_number", c)]
        = .error (.keyError key)) ∧
    (∀ ds : String, is_digits ds.data = true →
      pyFormat (pre ++ "\x7b" ++ ds ++ tail ++ "\x7d" ++ post)
        [("number", toString n), ("total", toString t)]
        = .error (.indexError ("Replacement index "
            ++ (if ds = "" then "0" else ds)
            ++ " out of range for positional args tuple"))) ∧
    pyFormat (pre ++ "\x7b" ++ "number" ++ "\x7d" ++ post)
      [("number", toString n), ("total", toString t)]
      = .ok (pre ++ toString n ++ post) ∧
    pyFormat (pre ++ "\x7b" ++ "number:d" ++ "\x7d" ++ post)
      [("number", toString n), ("total", toString t)]
      = .ok (pre ++ toString n ++ post) ∧
    pyFormat (pre ++ "\x7b" ++ "copy_number" ++ "\x7d" ++ post)
      [("copy_number", c)]
      = .ok (pre ++ c ++ post) ∧
    pyFormat (pre ++ post) [("number", toString n), ("total", toString t)]
      = .ok (pre ++ post) := by
  obtain ⟨hk1, hk2, hklb, hkrb, hkdg⟩ := plain_key_spec key hkey
  obtain ⟨htlb, htrb, hthead⟩ := spec_tail_spec tail htail
  have hfield : no_brace (key ++ tail) := by
    constructor
    · rw [string_data_append]
      intro hm
      rcases List.mem_append.mp hm with hm | hm
      · exact hklb hm
      · exact htlb hm
    · rw [string_data_append]
      intro hm
      rcases List.mem_append.mp hm with hm | hm
      · exact hkrb hm
      · exact htrb hm
  refine ⟨?_, ?_, ?_, ?_, ?_, ?_, ?_⟩
  · intro hmem
    have hn1 : ¬ ("number" = key) := fun hh => hmem (by simp [hh.symm])
    have hn2 : ¬ ("total" = key) := fun hh => hmem (by simp [hh.symm])
    rw [string_append_assoc (pre ++ "\x7b") key tail,
      pyFormat_single_field _ pre post (key ++ tail) hpre hpost hfield,
      string_data_append,
      resolve_field_keyword _ key.data tail.data hk1 hk2 hthead hkdg,
      string_mk_data]
    simp [lookupVar, hn1, hn2]
  · intro hcn
    have hn1 : ¬ ("copy_number" = key) := fun hh => hcn hh.symm
    rw [string_append_assoc (pre ++ "\x7b") key tail,
      pyFormat_single_field _ pre post (key ++ tail) hpre hpost hfield,
      string_data_append,
      resolve_field_keyword _ key.data tail.data hk1 hk2 hthead hkdg,
      string_mk_data]
    simp [lookupVar, hn1]
  · intro ds hds
    obtain ⟨hd1, hd2, hdlb, hdrb⟩ := digits_key_spec ds hds
    have hfield2 : no_brace (ds ++ tail) := by
      constructor
      · rw [string_data_append]
        intro hm
        rcases List.mem_append.mp hm with hm | hm
        · exact hdlb hm
        · exact htlb hm
      · rw [string_data_append]
        intro hm
        rcases List.mem_append.mp hm with hm | hm
        · exact hdrb hm
        · exact htrb hm
    rw [string_append_assoc (pre ++ "\x7b") ds tail,
      pyFormat_single_field _ pre post (ds ++ tail) hpre hpost hfield2,
      string_data_append,
      resolve_field_positional _ ds.data tail.data hd1 hd2 hthead hds]
    by_cases hempty : ds = ""
    · subst hempty
      rfl
    · have h1 : ds.data.isEmpty = false := by
        cases hdd : ds.data with
        | nil =>
          exact absurd (show ds = "" from by
            have := string_mk_data ds
            rw [hdd] at this
            exact this.symm) hempty
        | cons _ _ => rfl
      rw [if_neg (by simp [h1]), if_neg hempty, string_mk_data]
  · rw [pyFormat_single_field _ pre post "number" hpre hpost (by decide)]
    have hres : resolve_field [("number", toString n), ("total", toString t)]
        ("number" : String).data = .ok (toString n).data := by
      simp only [resolve_field, show arg_name_part (field_name_part
        ("number" : String).data) = ("number" : String).data from by decide]
      rw [if_neg (by decide), string_mk_data]
      simp [lookupVar]
    rw [hres]
  · rw [pyFormat_single_field _ pre post "number:d" hpre hpost (by decide)]
    have hres : resolve_field [("number", toString n), ("total", toString t)]
        ("number:d" : String).data = .ok (toString n).data := by
      simp only [resolve_field, show arg_name_part (field_name_part
        ("number:d" : String).data) = ("number" : String).data from by decide]
      rw [if_neg (by decide), string_mk_data]
      simp [lookupVar]
    rw [hres]
  · rw [pyFormat_single_field _ pre post "copy_number" hpre hpost (by decide)]
    have hres : resolve_field [("copy_number", c)]
        ("copy_number" : String).data = .ok c.data := by
      simp only [resolve_field, show arg_name_part (field_name_part
        ("copy_number" : String).data) = ("copy_number" : String).data from by
        decide]
      rw [if_neg (by decide), string_mk_data]
      simp [lookupVar]
    rw [hres]
  · refine pyFormat_of_no_brace _ _ ⟨?_, ?_⟩
    · rw [string_data_append]
      intro hmem
      rcases List.mem_append.mp hmem with hmem | hmem
      · exact hpre.1 hmem
      · exact hpost.1 hmem
    · rw [string_data_append]
      intro hmem
      rcases List.mem_append.mp hmem with hmem | hmem
      · exact hpre.2 hmem
      · exact hpost.2 hmem

/-- C8 witness: `\x7bfoo:d\x7d` and `\x7ba.b\x7d` are rejected with
`KeyError` carrying exactly the keyword (`foo`, `a`), `\x7b0\x7d` is a
positional field rejected with `IndexError`, and `\x7bnumber:d\x7d`
formats the integer label value just as CPython's `d` spec does; the
recognized but unreferenced `total` is simply omitted throughout. -/
theorem c8_template_placeholders_witness :
    pyFormat ("Page " ++ "\x7b" ++ "foo" ++ ":d" ++ "\x7d" ++ "")
      [("number", toString (1 : Int)), ("total", toString (3 : Int))]
      = .error (.keyError "foo") ∧
    pyFormat ("" ++ "\x7b" ++ "a" ++ ".b" ++ "\x7d" ++ "")
      [("number", toString (1 : Int)), ("total", toString (3 : Int))]
      = .error (.keyError "a") ∧
    pyFormat ("" ++ "\x7b" ++ "0" ++ "" ++ "\x7d" ++ "")
      [("number", toString (1 : Int)), ("total", toString (3 : Int))]
      = .error (.indexError ("Replacement index " ++ "0"
          ++ " out of range for positional args tuple")) ∧
    pyFormat ("Page " ++ "\x7b" ++ "number:d" ++ "\x7d" ++ "")
      [("number", toString (1 : Int)), ("total", toString (3 : Int))]
      = .ok ("Page " ++ toString (1 : Int) ++ "") := by
  have h1 := c8_template_placeholders "Page " "" "foo" ":d" 1 3 "CC-001"
    (by decide) (by decide) (by decide) (by decide)
  have h2 := c8_template_placeholders "" "" "a" ".b" 1 3 "CC-001"
    (by decide) (by decide) (by decide) (by decide)
  have h3 := c8_template_placeholders "" "" "x" "" 1 3 "CC-001"
    (by decide) (by decide) (by decide) (by decide)
  refine ⟨h1.1 (by decide), h2.1 (by decide), ?_, h1.2.2.2.2.1⟩
  have hd := h3.2.2.1 "0" (by decide)
  rw [if_neg (by decide)] at hd
  exact hd

/-- C9: for every annotated page of width `w` and height `h`, the overlay
draws the copy label right-aligned at `(w - 43.2, h - 43.2)` in bold 14pt
black, the page label centred at `w/2`, 21.6pt from the bottom, in regular
12pt black, and the watermark centred at `(w/2, h/2)` rotated 45°
counter-clockwise, bold, at font size `min w h * 0.1`, filled light gray
`(0.7, 0.7, 0.7)` at 20% opacity. -/
theorem c9_overlay_layout (w h : ℚ) (pl cl wt : String) :
    build_overlay_page w h pl cl wt =
      { width := w
        height := h
        draws :=
          [ { text := cl, fontName := "Helvetica-Bold", fontSize := 14
              x := w - 216 / 5, y := h - 216 / 5, align := .right
              fill := ⟨0, 0, 0, 1⟩, rotationDeg := 0 },
            { text := pl, fontName := "Helvetica", fontSize := 12
              x := w / 2, y := 108 / 5, align := .center
              fill := ⟨0, 0, 0, 1⟩, rotationDeg := 0 },
            { text := wt, fontName := "Helvetica-Bold"
              fontSize := min w h * (1 / 10)
              x := w / 2, y := h / 2, align := .center
              fill := ⟨7 / 10, 7 / 10, 7 / 10, 1 / 5⟩, rotationDeg := 45 } ] } := by
  unfold build_overlay_page inch black
  norm_num

end LogbookMaker
